import Mathlib

/-!
Shallow embedding of the radio-traffic-stitcher frontend session logic
(types.ts and the App component) together with the export-command layer.
Durations and sizes are modelled as naturals; external calls (the probing
tool, the encoder, dialogs) are modelled as explicit oracle parameters so
that the order of invocations and the data handed over are visible.
-/

namespace RadioTrafficStitcher

/-- Audio clip type (types.ts `AudioClip`). -/
structure AudioClip where
  id : String
  path : String
  name : String
  duration : Nat
  size : Nat
deriving DecidableEq, Inhabited

/-- Audio file info from FFprobe (types.ts `AudioInfo`). -/
structure AudioInfo where
  duration : Nat
  size : Nat
  valid : Bool
  error : Option String
deriving DecidableEq, Inhabited

/-- Image info from FFprobe (types.ts `ImageInfo`). -/
structure ImageInfo where
  width : Nat
  height : Nat
  valid : Bool
  error : Option String
deriving DecidableEq, Inhabited

/-- Background image state (types.ts `BackgroundImage`). -/
structure BackgroundImage where
  path : String
  name : String
  width : Nat
  height : Nat
deriving DecidableEq, Inhabited

/-- Export format type (types.ts `ExportFormat`). -/
inductive ExportFormat where
  | mp3
  | mp4
deriving DecidableEq, Inhabited

/-- Image fit mode for video export (types.ts `ImageFitMode`). -/
inductive ImageFitMode where
  | fit
  | fill
deriving DecidableEq, Inhabited

/-- Video configuration for export (types.ts `VideoConfig`). -/
structure VideoConfig where
  image_path : Option String
  fit_mode : ImageFitMode
deriving DecidableEq, Inhabited

/-- One entry of `BITRATE_OPTIONS` (types.ts). -/
structure BitrateOption where
  label : String
  value : String
deriving DecidableEq, Inhabited

/-- Supported audio extensions (types.ts `SUPPORTED_EXTENSIONS`). -/
def SUPPORTED_EXTENSIONS : List String :=
  [".mp3", ".wav", ".ogg", ".flac", ".m4a", ".aac", ".wma", ".opus"]

/-- Bitrate options for export (types.ts `BITRATE_OPTIONS`). -/
def BITRATE_OPTIONS : List BitrateOption :=
  [ { label := "128 kbps", value := "128k" },
    { label := "192 kbps", value := "192k" },
    { label := "256 kbps", value := "256k" },
    { label := "320 kbps", value := "320k" } ]

/-- Supported image extensions (types.ts `SUPPORTED_IMAGE_EXTENSIONS`). -/
def SUPPORTED_IMAGE_EXTENSIONS : List String :=
  [".png", ".jpg", ".jpeg", ".webp", ".gif"]

/-- Character-wise lowercasing, the model of JS `toLowerCase`. -/
def lowerStr (s : String) : String :=
  String.mk (s.data.map Char.toLower)

/-- The model of JS `substring(i)` for a non-negative start index. -/
def dropStr (s : String) (n : Nat) : String :=
  String.mk (s.data.drop n)

/-- Index of the last occurrence of a dot, the model of JS
`lastIndexOf` returning none for the JS result -1. -/
def lastDotPos : List Char → Option Nat
  | [] => none
  | c :: rest =>
    match lastDotPos rest with
    | some i => some (i + 1)
    | none => if c = '.' then some 0 else none

/-- The extension computed by the source:
`filename.toLowerCase().substring(filename.lastIndexOf('.'))`.
JS `substring` clamps the start index -1 (no dot found) to 0, so in that
case the whole lowercased filename is returned. -/
def extOf (filename : String) : String :=
  match lastDotPos filename.data with
  | some i => dropStr (lowerStr filename) i
  | none => lowerStr filename

/-- App.tsx `isSupportedAudio`. -/
def isSupportedAudio (filename : String) : Bool :=
  SUPPORTED_EXTENSIONS.contains (extOf filename)

/-- The image extension check inlined in `handleSelectImage`. -/
def isSupportedImage (filename : String) : Bool :=
  SUPPORTED_IMAGE_EXTENSIONS.contains (extOf filename)

/-- Path separator class of the split pattern in
`path.split` over slash and backslash. -/
def isPathSep (c : Char) : Bool :=
  c = '/' || c = '\\'

/-- JS `split` on the path-separator character class. -/
def splitOnSep : List Char → List (List Char)
  | [] => [[]]
  | c :: rest =>
    if isPathSep c then [] :: splitOnSep rest
    else
      match splitOnSep rest with
      | h :: t => (c :: h) :: t
      | [] => [[c]]

/-- The filename of a path: the source's
`path.split` then `pop() || path` (an empty last component is falsy in JS,
so the whole path is used then). -/
def basename (path : String) : String :=
  match (splitOnSep path.data).getLast? with
  | some l => if l.isEmpty then path else String.mk l
  | none => path

/-- The clip record pushed by `addAudioFiles` for an accepted file. -/
def mkClip (id path name : String) (info : AudioInfo) : AudioClip :=
  { id := id, path := path, name := name, duration := info.duration, size := info.size }

/-- The loop body of `addAudioFiles`, instrumented: returns the clips
accepted (in input order) and the list of paths for which the probing
command `get_audio_info` was invoked.  `probe` is the oracle for that
external call; an `Except.error` models a rejected promise (the catch
branch).  `idGen` supplies the value of `generateId()` for the n-th
accepted clip. -/
def addLoopTrace (probe : String → Except String AudioInfo) (idGen : Nat → String) :
    List String → Nat → List AudioClip × List String
  | [], _ => ([], [])
  | p :: rest, n =>
    if isSupportedAudio (basename p) then
      match probe p with
      | Except.ok info =>
        if info.valid then
          (mkClip (idGen n) p (basename p) info :: (addLoopTrace probe idGen rest (n + 1)).1,
            p :: (addLoopTrace probe idGen rest (n + 1)).2)
        else
          ((addLoopTrace probe idGen rest n).1, p :: (addLoopTrace probe idGen rest n).2)
      | Except.error _ =>
        ((addLoopTrace probe idGen rest n).1, p :: (addLoopTrace probe idGen rest n).2)
    else
      addLoopTrace probe idGen rest n

/-- App.tsx `addAudioFiles`: the session clip list after processing
`paths` against the previous list `prev` (the `setClips` update
`prev ++ newClips`, guarded by `newClips.length > 0`). -/
def addAudioFiles (probe : String → Except String AudioInfo) (idGen : Nat → String)
    (paths : List String) (prev : List AudioClip) : List AudioClip :=
  let newClips := (addLoopTrace probe idGen paths 0).1
  if newClips.isEmpty then prev else prev ++ newClips

/-- Whether `addAudioFiles` accepts a path: supported extension and a
successfully resolved probe reporting `valid`. -/
def accepts (probe : String → Except String AudioInfo) (p : String) : Bool :=
  isSupportedAudio (basename p) &&
    match probe p with
    | Except.ok info => info.valid
    | Except.error _ => false

/-- The `direction` argument of `moveClip`. -/
inductive Direction where
  | up
  | down
deriving DecidableEq, Inhabited

/-- The `newIndex` computed by `moveClip`, over the integers exactly as
in the source. -/
def moveTarget (index : Nat) (direction : Direction) : Int :=
  match direction with
  | .up => (index : Int) - 1
  | .down => (index : Int) + 1

/-- App.tsx `moveClip`: guard `newIndex < 0 || newIndex >= clips.length`
returns the list unchanged, otherwise the entries at `index` and
`newIndex` are swapped. -/
def moveClip (clips : List AudioClip) (index : Nat) (direction : Direction) : List AudioClip :=
  if moveTarget index direction < 0 ∨ (clips.length : Int) ≤ moveTarget index direction then
    clips
  else
    (clips.set index (clips.getD (moveTarget index direction).toNat default)).set
      (moveTarget index direction).toNat (clips.getD index default)

/-- App.tsx `removeClip`: `prev.filter(c => c.id !== id)`. -/
def removeClip (clips : List AudioClip) (id : String) : List AudioClip :=
  clips.filter (fun c => c.id != id)

/-- JS `splice(i, 1)` on a list: the remaining list and the removed
element, none when `i` is out of range. -/
def spliceRemoveOne (l : List AudioClip) (i : Nat) : List AudioClip × Option AudioClip :=
  if h : i < l.length then (l.eraseIdx i, some (l.get ⟨i, h⟩)) else (l, none)

/-- JS `splice(i, 0, a)` on a list: insertion with the start index clamped
to the length. -/
def spliceInsert (l : List AudioClip) (i : Nat) (a : AudioClip) : List AudioClip :=
  l.insertIdx (min i l.length) a

/-- App.tsx `handleDragOverItem` acting on the clip list and the
`draggedIndex` state: returns the new clip list and the new dragged
index. -/
def handleDragOverItem (clips : List AudioClip) (draggedIndex : Option Nat)
    (index : Nat) : List AudioClip × Option Nat :=
  match draggedIndex with
  | none => (clips, none)
  | some d =>
    if d = index then (clips, some d)
    else
      match spliceRemoveOne clips d with
      | (rest, some dragged) => (spliceInsert rest index dragged, some index)
      | (rest, none) => (rest, some index)

/-- The two Tauri commands an export can invoke. -/
inductive StitchOp where
  | stitch_audio
  | stitch_video
deriving DecidableEq, Inhabited

/-- Outcome of `handleExport` up to the encoder invocation: rejected
because the clip list is empty (error toast, nothing built), cancelled at
the save dialog, or an invocation of a stitch command with the exact
payload handed to `invoke`. -/
inductive ExportAction where
  | rejectedEmpty
  | cancelled
  | run (op : StitchOp) (clips : List AudioClip) (outputPath : String)
      (bitrate : String) (videoConfig : Option VideoConfig)
deriving DecidableEq, Inhabited

/-- `backgroundImage?.path || null`: JS `||` maps an empty path string to
null as well. -/
def imagePathOrNull (bg : Option BackgroundImage) : Option String :=
  match bg with
  | none => none
  | some b => if b.path = "" then none else some b.path

/-- The session state held by the App component (the useState hooks the
claims are about). -/
structure SessionState where
  clips : List AudioClip
  outputName : String
  bitrate : String
  draggedIndex : Option Nat
  exportFormat : ExportFormat
  backgroundImage : Option BackgroundImage
  imageFitMode : ImageFitMode
deriving DecidableEq, Inhabited

/-- The initial values of the useState hooks. -/
def initialState : SessionState :=
  { clips := []
    outputName := "combined_audio"
    bitrate := "256k"
    draggedIndex := none
    exportFormat := .mp3
    backgroundImage := none
    imageFitMode := .fit }

/-- App.tsx `handleExport` (video variant): empty-list guard, save dialog
outcome, then the `invoke` of `stitch_video` or `stitch_audio` with the
session's clip list, output path, bitrate and (for video) the
`VideoConfig` built from the background image and fit mode. -/
def handleExport (s : SessionState) (outputPath : Option String) : ExportAction :=
  if s.clips.length = 0 then .rejectedEmpty
  else
    match outputPath with
    | none => .cancelled
    | some p =>
      match s.exportFormat with
      | .mp4 => .run .stitch_video s.clips p s.bitrate
          (some { image_path := imagePathOrNull s.backgroundImage, fit_mode := s.imageFitMode })
      | .mp3 => .run .stitch_audio s.clips p s.bitrate none

/-- App.tsx `handleSelectImage`: extension check, probe via
`get_image_info` (oracle `probeImage`), and on success replacement of the
background image. -/
def handleSelectImage (s : SessionState) (selected : Option String)
    (probeImage : String → ImageInfo) : SessionState :=
  match selected with
  | none => s
  | some path =>
    let filename := basename path
    if isSupportedImage filename then
      let info := probeImage path
      if info.valid then
        let bg : BackgroundImage :=
          { path := path, name := filename, width := info.width, height := info.height }
        { s with backgroundImage := some bg }
      else s
    else s

/-- App.tsx `handleRemoveImage`. -/
def handleRemoveImage (s : SessionState) : SessionState :=
  { s with backgroundImage := none }

/-- The UI events that update the session state.  `setBitrate` carries an
index into `BITRATE_OPTIONS` because the select element renders exactly
those options; probe oracles travel with the events that need them. -/
inductive Event where
  | addFiles (probe : String → Except String AudioInfo) (idGen : Nat → String) (paths : List String)
  | move (index : Nat) (direction : Direction)
  | remove (id : String)
  | dragStart (index : Nat)
  | dragEnd
  | dragOverItem (index : Nat)
  | setOutputName (name : String)
  | setBitrate (i : Fin BITRATE_OPTIONS.length)
  | setExportFormat (f : ExportFormat)
  | setImageFitMode (m : ImageFitMode)
  | selectImage (selected : Option String) (probeImage : String → ImageInfo)
  | removeImage
  | exportClips (outputPath : Option String)

/-- One step of the session state machine.  `exportClips` leaves the
session data unchanged: `handleExport` only reads it (the transient
processing flag is not part of the model). -/
def step (s : SessionState) (e : Event) : SessionState :=
  match e with
  | .addFiles probe idGen paths => { s with clips := addAudioFiles probe idGen paths s.clips }
  | .move i d => { s with clips := moveClip s.clips i d }
  | .remove id => { s with clips := removeClip s.clips id }
  | .dragStart i => { s with draggedIndex := some i }
  | .dragEnd => { s with draggedIndex := none }
  | .dragOverItem i =>
    let r := handleDragOverItem s.clips s.draggedIndex i
    { s with clips := r.1, draggedIndex := r.2 }
  | .setOutputName n => { s with outputName := n }
  | .setBitrate i => { s with bitrate := (BITRATE_OPTIONS.get i).value }
  | .setExportFormat f => { s with exportFormat := f }
  | .setImageFitMode m => { s with imageFitMode := m }
  | .selectImage sel probeImage => handleSelectImage s sel probeImage
  | .removeImage => handleRemoveImage s
  | .exportClips _ => s

/-- Session states reachable from the initial render by UI events. -/
inductive Reachable : SessionState → Prop
  | init : Reachable initialState
  | next {s : SessionState} (e : Event) : Reachable s → Reachable (step s e)

/-- One step of the video filter chain built by the encoder command. -/
inductive VideoFilterStep where
  | scalePreserveAspect
  | padToCanvas
  | cropToCanvas
deriving DecidableEq, Inhabited

/-- Modelled from the spec: the encoder-side command builder (the Tauri
backend command `stitch_video`) is not among the files under src; per the
spec the video path produces a fixed 1920x1080 stream and "applies a
scale/pad filter for letterbox mode or a scale/crop filter for fill
mode", i.e. scaling preserving aspect ratio followed by padding for fit
and by cropping for fill. -/
def buildVideoFilterChain (fit_mode : ImageFitMode) : List VideoFilterStep :=
  match fit_mode with
  | .fit => [.scalePreserveAspect, .padToCanvas]
  | .fill => [.scalePreserveAspect, .cropToCanvas]

/-- Concrete clip fixtures for the evaluation theorems. -/
def exampleClip1 : AudioClip :=
  { id := "a1", path := "/tmp/one.mp3", name := "one.mp3", duration := 10, size := 1000 }

def exampleClip2 : AudioClip :=
  { id := "a2", path := "/tmp/two.wav", name := "two.wav", duration := 20, size := 2000 }

def exampleClip3 : AudioClip :=
  { id := "a3", path := "/tmp/three.ogg", name := "three.ogg", duration := 30, size := 3000 }

def exampleClips : List AudioClip :=
  [exampleClip1, exampleClip2, exampleClip3]

/-- A session state with three clips, used to evaluate the theorems. -/
def exampleState : SessionState :=
  { initialState with clips := exampleClips }

/-- A concrete probe oracle for the evaluation theorems. -/
def exampleProbe (p : String) : Except String AudioInfo :=
  if p = "/tmp/one.mp3" then
    Except.ok { duration := 10, size := 1000, valid := true, error := none }
  else if p = "/tmp/bad.wav" then
    Except.ok { duration := 0, size := 0, valid := false, error := some "corrupt" }
  else Except.error "probe failed"

/-- A concrete id supply for the evaluation theorems. -/
def exampleIdGen (n : Nat) : String :=
  String.mk (Nat.toDigits 10 n)

/-- A concrete image probe oracle for the evaluation theorems. -/
def exampleProbeImage (_ : String) : ImageInfo :=
  { width := 800, height := 600, valid := true, error := none }

/-- A background image fixture narrower than 1920. -/
def exampleBg800 : BackgroundImage :=
  { path := "/tmp/bg.png", name := "bg.png", width := 800, height := 600 }

/-- A session fixture ready for a video export: mp4 format, a background
image narrower than 1920, fit mode letterbox. -/
def exampleVideoState : SessionState :=
  { clips := exampleClips
    outputName := "combined_audio"
    bitrate := "256k"
    draggedIndex := none
    exportFormat := .mp4
    backgroundImage := some exampleBg800
    imageFitMode := .fit }

/-- The `VideoConfig` the fixture's export hands to `stitch_video`. -/
def exampleVideoConfig : VideoConfig :=
  { image_path := some "/tmp/bg.png", fit_mode := .fit }

/-- A concrete previously-held background image for the evaluation theorems. -/
def exampleOldBg : BackgroundImage :=
  { path := "/tmp/old.png", name := "old.png", width := 10, height := 10 }

/-- The session fixture already holding `exampleOldBg`. -/
def exampleStateWithBg : SessionState :=
  { exampleState with backgroundImage := some exampleOldBg }

/-- The background image produced by selecting `/tmp/bg.png` under
`exampleProbeImage`. -/
def exampleNewBg : BackgroundImage :=
  { path := "/tmp/bg.png", name := "bg.png", width := 800, height := 600 }

theorem getD_set_at {α : Type} (l : List α) (i : Nat) (x d : α) (h : i < l.length) :
    (l.set i x).getD i d = x := by
  simp [List.getD_eq_getElem?_getD, List.getElem?_set_self h]

theorem getD_set_away {α : Type} (l : List α) (i j : Nat) (x d : α) (h : i ≠ j) :
    (l.set i x).getD j d = l.getD j d := by
  simp [List.getD_eq_getElem?_getD, List.getElem?_set_ne h]

theorem perm_getD_cons_set {α : Type} (d : α) :
    ∀ (t : List α) (k : Nat) (x : α), k < t.length →
      (t.getD k d :: t.set k x).Perm (x :: t)
  | b :: u, 0, x, _ => by
    simpa using List.Perm.swap x b u
  | b :: u, k + 1, x, h => by
    have hk : k < u.length := by simpa using h
    have h1 : (u.getD k d :: b :: u.set k x).Perm (b :: (u.getD k d :: u.set k x)) :=
      List.Perm.swap b (u.getD k d) (u.set k x)
    have h2 : (b :: (u.getD k d :: u.set k x)).Perm (b :: (x :: u)) :=
      (perm_getD_cons_set d u k x hk).cons b
    have h3 : (b :: x :: u).Perm (x :: b :: u) := List.Perm.swap x b u
    simpa using h1.trans (h2.trans h3)

theorem swap_sets_perm {α : Type} (d : α) :
    ∀ (l : List α) (i j : Nat), i < l.length → j < l.length →
      ((l.set i (l.getD j d)).set j (l.getD i d)).Perm l
  | a :: t, 0, 0, _, _ => by simp
  | a :: t, 0, k + 1, _, hj => by
    have hk : k < t.length := by simpa using hj
    simpa using perm_getD_cons_set d t k a hk
  | a :: t, m + 1, 0, hi, _ => by
    have hm : m < t.length := by simpa using hi
    simpa using perm_getD_cons_set d t m a hm
  | a :: t, m + 1, k + 1, hi, hj => by
    have hm : m < t.length := by simpa using hi
    have hk : k < t.length := by simpa using hj
    simpa using (swap_sets_perm d t m k hm hk).cons a

theorem insertIdx_perm_cons {α : Type} (a : α) :
    ∀ (l : List α) (i : Nat), i ≤ l.length → (l.insertIdx i a).Perm (a :: l)
  | l, 0, _ => by simp [List.insertIdx_zero]
  | [], i + 1, h => by simp at h
  | b :: t, i + 1, h => by
    rw [List.insertIdx_succ_cons]
    exact ((insertIdx_perm_cons a t i (by simpa using h)).cons b).trans (List.Perm.swap a b t)

theorem cons_get_eraseIdx_perm {α : Type} :
    ∀ (l : List α) (i : Nat) (h : i < l.length),
      (l.get ⟨i, h⟩ :: l.eraseIdx i).Perm l
  | a :: t, 0, _ => by simp [List.eraseIdx]
  | a :: t, i + 1, h => by
    have ht : i < t.length := by simpa using h
    have hrec := (cons_get_eraseIdx_perm t i ht).cons a
    simpa [List.eraseIdx] using
      (List.Perm.swap a (t.get ⟨i, ht⟩) (t.eraseIdx i)).trans hrec

theorem moveClip_up_zero (clips : List AudioClip) : moveClip clips 0 .up = clips := by
  rw [moveClip, if_pos]
  left
  simp [moveTarget]

theorem moveClip_down_last (clips : List AudioClip) :
    moveClip clips (clips.length - 1) .down = clips := by
  rw [moveClip, if_pos]
  right
  simp only [moveTarget]
  omega

theorem moveClip_up_eq (clips : List AudioClip) (i : Nat) (h0 : 0 < i) (h : i < clips.length) :
    moveClip clips i .up =
      (clips.set i (clips.getD (i - 1) default)).set (i - 1) (clips.getD i default) := by
  have hne : ¬ (moveTarget i .up < 0 ∨ (clips.length : Int) ≤ moveTarget i .up) := by
    simp only [moveTarget]
    omega
  have ht : (moveTarget i .up).toNat = i - 1 := by
    simp only [moveTarget]
    omega
  rw [moveClip, if_neg hne, ht]

theorem moveClip_down_eq (clips : List AudioClip) (i : Nat) (h : i + 1 < clips.length) :
    moveClip clips i .down =
      (clips.set i (clips.getD (i + 1) default)).set (i + 1) (clips.getD i default) := by
  have hne : ¬ (moveTarget i .down < 0 ∨ (clips.length : Int) ≤ moveTarget i .down) := by
    simp only [moveTarget]
    omega
  have ht : (moveTarget i .down).toNat = i + 1 := by
    simp only [moveTarget]
    omega
  rw [moveClip, if_neg hne, ht]

theorem moveClip_perm (clips : List AudioClip) (i : Nat) (hi : i < clips.length)
    (d : Direction) : (moveClip clips i d).Perm clips := by
  cases d with
  | up =>
    cases Nat.eq_zero_or_pos i with
    | inl h0 => rw [h0, moveClip_up_zero]
    | inr h0 =>
      rw [moveClip_up_eq clips i h0 hi]
      exact swap_sets_perm default clips i (i - 1) hi (by omega)
  | down =>
    cases Nat.lt_or_ge (i + 1) clips.length with
    | inl hlt =>
      rw [moveClip_down_eq clips i hlt]
      exact swap_sets_perm default clips i (i + 1) hi hlt
    | inr hge =>
      have : moveClip clips i .down = clips := by
        rw [moveClip, if_pos]
        right
        simp only [moveTarget]
        omega
      rw [this]

theorem handleDragOverItem_perm (clips : List AudioClip) (d : Nat) (idx : Nat)
    (hd : d < clips.length) :
    ((handleDragOverItem clips (some d) idx).1).Perm clips := by
  rw [handleDragOverItem]
  by_cases he : d = idx
  · rw [if_pos he]
  · rw [if_neg he]
    rw [spliceRemoveOne, dif_pos hd]
    have h1 : ((clips.eraseIdx d).insertIdx
        (min idx (clips.eraseIdx d).length) (clips.get ⟨d, hd⟩)).Perm
        (clips.get ⟨d, hd⟩ :: clips.eraseIdx d) :=
      insertIdx_perm_cons _ _ _ (Nat.min_le_right _ _)
    exact h1.trans (cons_get_eraseIdx_perm clips d hd)

theorem addLoopTrace_map_path (probe : String → Except String AudioInfo)
    (idGen : Nat → String) :
    ∀ (paths : List String) (n : Nat),
      ((addLoopTrace probe idGen paths n).1).map (fun c => c.path) =
        paths.filter (accepts probe)
  | [], _ => by simp [addLoopTrace]
  | p :: rest, n => by
    by_cases hs : isSupportedAudio (basename p) = true
    · cases hpp : probe p with
      | ok info =>
        by_cases hv : info.valid = true
        · simp [addLoopTrace, hs, hpp, hv, accepts, mkClip,
            addLoopTrace_map_path probe idGen rest (n + 1), List.filter_cons]
        · simp [addLoopTrace, hs, hpp, hv, accepts,
            addLoopTrace_map_path probe idGen rest n, List.filter_cons]
      | error e =>
        simp [addLoopTrace, hs, hpp, accepts,
          addLoopTrace_map_path probe idGen rest n, List.filter_cons]
    · simp [addLoopTrace, hs, accepts,
        addLoopTrace_map_path probe idGen rest n, List.filter_cons]

theorem addLoopTrace_probed_supported (probe : String → Except String AudioInfo)
    (idGen : Nat → String) :
    ∀ (paths : List String) (n : Nat) (q : String),
      q ∈ (addLoopTrace probe idGen paths n).2 →
        isSupportedAudio (basename q) = true
  | [], _, q, hq => by simp [addLoopTrace] at hq
  | p :: rest, n, q, hq => by
    by_cases hs : isSupportedAudio (basename p) = true
    · cases hpp : probe p with
      | ok info =>
        by_cases hv : info.valid = true
        · rw [addLoopTrace, if_pos hs, hpp] at hq
          dsimp only at hq
          rw [if_pos hv] at hq
          rcases List.mem_cons.mp hq with h | h
          · rw [h]; exact hs
          · exact addLoopTrace_probed_supported probe idGen rest (n + 1) q h
        · rw [addLoopTrace, if_pos hs, hpp] at hq
          dsimp only at hq
          rw [if_neg hv] at hq
          rcases List.mem_cons.mp hq with h | h
          · rw [h]; exact hs
          · exact addLoopTrace_probed_supported probe idGen rest n q h
      | error e =>
        rw [addLoopTrace, if_pos hs, hpp] at hq
        dsimp only at hq
        rcases List.mem_cons.mp hq with h | h
        · rw [h]; exact hs
        · exact addLoopTrace_probed_supported probe idGen rest n q h
    · rw [addLoopTrace, if_neg hs] at hq
      exact addLoopTrace_probed_supported probe idGen rest n q hq

theorem addLoopTrace_clips_accepted (probe : String → Except String AudioInfo)
    (idGen : Nat → String) :
    ∀ (paths : List String) (n : Nat) (c : AudioClip),
      c ∈ (addLoopTrace probe idGen paths n).1 →
        accepts probe c.path = true ∧
        ∃ info, probe c.path = Except.ok info ∧ info.valid = true ∧
          c.duration = info.duration ∧ c.size = info.size ∧
          c.name = basename c.path
  | [], _, c, hc => by simp [addLoopTrace] at hc
  | p :: rest, n, c, hc => by
    by_cases hs : isSupportedAudio (basename p) = true
    · cases hpp : probe p with
      | ok info =>
        by_cases hv : info.valid = true
        · rw [addLoopTrace, if_pos hs, hpp] at hc
          dsimp only at hc
          rw [if_pos hv] at hc
          rcases List.mem_cons.mp hc with h | h
          · subst h
            refine ⟨by simp [accepts, mkClip, hs, hpp, hv], info, ?_⟩
            simp [mkClip, hpp, hv]
          · exact addLoopTrace_clips_accepted probe idGen rest (n + 1) c h
        · rw [addLoopTrace, if_pos hs, hpp] at hc
          dsimp only at hc
          rw [if_neg hv] at hc
          exact addLoopTrace_clips_accepted probe idGen rest n c hc
      | error e =>
        rw [addLoopTrace, if_pos hs, hpp] at hc
        dsimp only at hc
        exact addLoopTrace_clips_accepted probe idGen rest n c hc
    · rw [addLoopTrace, if_neg hs] at hc
      exact addLoopTrace_clips_accepted probe idGen rest n c hc

theorem addAudioFiles_eq_append (probe : String → Except String AudioInfo)
    (idGen : Nat → String) (paths : List String) (prev : List AudioClip) :
    addAudioFiles probe idGen paths prev =
      prev ++ (addLoopTrace probe idGen paths 0).1 := by
  rw [addAudioFiles]
  by_cases h : ((addLoopTrace probe idGen paths 0).1).isEmpty = true
  · rw [if_pos h, List.isEmpty_iff.mp h, List.append_nil]
  · rw [if_neg h]

theorem toLower_eq_dot {c : Char} (h : c.toLower = '.') : c = '.' := by
  unfold Char.toLower at h
  dsimp only at h
  split at h
  · exfalso
    rename_i hrange
    have hvalid : (c.toNat + 32).isValidChar := Or.inl (by omega)
    rw [Char.ofNat, dif_pos hvalid] at h
    have h2 := congrArg Char.toNat h
    simp [Char.ofNatAux, Char.toNat, UInt32.toNat] at h2 hrange
    omega
  · exact h

theorem mem_of_toLower_dot {l : List Char} (h : '.' ∈ l.map Char.toLower) : '.' ∈ l := by
  rcases List.mem_map.mp h with ⟨c, hc, hl⟩
  exact (toLower_eq_dot hl) ▸ hc

theorem lastDotPos_eq_none_iff : ∀ (l : List Char), lastDotPos l = none ↔ '.' ∉ l
  | [] => by simp [lastDotPos]
  | c :: rest => by
    rw [lastDotPos]
    cases h : lastDotPos rest with
    | some i =>
      have hmem : '.' ∈ rest := by
        by_contra hmem
        rw [← lastDotPos_eq_none_iff rest, h] at hmem
        exact Option.noConfusion hmem
      simp [hmem]
    | none =>
      have hrest : '.' ∉ rest := (lastDotPos_eq_none_iff rest).mp h
      by_cases hc : c = '.'
      · simp [hc]
      · simp only [List.mem_cons, not_or]
        simp [hc, hrest]
        exact fun hh => hc hh.symm

theorem supported_ext_has_dot : ∀ e ∈ SUPPORTED_EXTENSIONS, '.' ∈ e.data := by decide

theorem contains_iff_mem_str {l : List String} {a : String} :
    l.contains a = true ↔ a ∈ l := by
  simp [List.contains]

theorem lowerStr_dropStr (f : String) (i : Nat) :
    lowerStr (dropStr f i) = dropStr (lowerStr f) i := by
  simp [lowerStr, dropStr, List.map_drop]

theorem no_dot_rejected (f : String) (h : '.' ∉ f.data) : isSupportedAudio f = false := by
  have hnone : lastDotPos f.data = none := (lastDotPos_eq_none_iff f.data).mpr h
  rw [isSupportedAudio, extOf, hnone]
  cases hcon : SUPPORTED_EXTENSIONS.contains (lowerStr f) with
  | false => rfl
  | true =>
    exfalso
    have hmem : lowerStr f ∈ SUPPORTED_EXTENSIONS := contains_iff_mem_str.mp hcon
    have hdot : '.' ∈ (lowerStr f).data := supported_ext_has_dot _ hmem
    exact h (mem_of_toLower_dot (by simpa [lowerStr] using hdot))

theorem handleSelectImage_bitrate (s : SessionState) (sel : Option String)
    (probeImage : String → ImageInfo) :
    (handleSelectImage s sel probeImage).bitrate = s.bitrate := by
  cases sel with
  | none => rfl
  | some path =>
    rw [handleSelectImage]
    by_cases h1 : isSupportedImage (basename path) = true
    · rw [if_pos h1]
      by_cases h2 : (probeImage path).valid = true
      · rw [if_pos h2]
      · rw [if_neg h2]
    · rw [if_neg h1]

/-- C1: whenever `handleExport` reaches an encoder invocation, the clip
list handed to the stitch command is exactly the session clip list, in
its current order — nothing is sorted, dropped, deduplicated or
reordered — and the output path and bitrate are the session's too. -/
theorem export_clip_order_exact (s : SessionState) (p : String) (op : StitchOp)
    (cs : List AudioClip) (out br : String) (vc : Option VideoConfig)
    (h : handleExport s (some p) = .run op cs out br vc) :
    cs = s.clips ∧ out = p ∧ br = s.bitrate := by
  rw [handleExport.eq_def] at h
  by_cases hc : s.clips.length = 0
  · rw [if_pos hc] at h
    exact absurd h (by simp)
  · rw [if_neg hc] at h
    cases hf : s.exportFormat with
    | mp3 =>
      rw [hf] at h
      dsimp only at h
      simp only [ExportAction.run.injEq] at h
      exact ⟨h.2.1.symm, h.2.2.1.symm, h.2.2.2.1.symm⟩
    | mp4 =>
      rw [hf] at h
      dsimp only at h
      simp only [ExportAction.run.injEq] at h
      exact ⟨h.2.1.symm, h.2.2.1.symm, h.2.2.2.1.symm⟩

/-- C1 witness: evaluation at a concrete three-clip session. -/
theorem export_clip_order_exact_witness :
    handleExport exampleState (some "/tmp/out.mp3") =
      ExportAction.run .stitch_audio exampleClips "/tmp/out.mp3" "256k" none ∧
    exampleClips = exampleState.clips := by
  refine ⟨by decide, ?_⟩
  exact (export_clip_order_exact exampleState "/tmp/out.mp3" .stitch_audio
    exampleClips "/tmp/out.mp3" "256k" none (by decide)).1

/-- C2: an export on an empty clip list is rejected before any encoder
invocation is built — the outcome is the rejection (no `run` action, so
neither stitch command is invoked) — and the session state is
unchanged by the export event. -/
theorem export_empty_rejected (s : SessionState) (p : Option String)
    (h : s.clips = []) :
    handleExport s p = .rejectedEmpty ∧ step s (.exportClips p) = s := by
  constructor
  · rw [handleExport.eq_def, if_pos (by simp [h])]
  · rfl

/-- C2 witness: evaluation at the initial (empty) session. -/
theorem export_empty_rejected_witness :
    handleExport initialState (some "/tmp/out.mp3") = .rejectedEmpty ∧
    step initialState (.exportClips (some "/tmp/out.mp3")) = initialState :=
  export_empty_rejected initialState (some "/tmp/out.mp3") rfl

/-- C7: in every reachable session state the bitrate is one of the four
values of `BITRATE_OPTIONS` (128k/192k/256k/320k); the initial value is
256k and every bitrate update selects from that set only. -/
theorem bitrate_always_in_options (s : SessionState) (h : Reachable s) :
    initialState.bitrate = "256k" ∧
    s.bitrate ∈ BITRATE_OPTIONS.map (fun o => o.value) := by
  refine ⟨rfl, ?_⟩
  induction h with
  | init => decide
  | next e hr ih =>
    cases e with
    | addFiles probe idGen paths => exact ih
    | move i d => exact ih
    | remove id => exact ih
    | dragStart i => exact ih
    | dragEnd => exact ih
    | dragOverItem i => exact ih
    | setOutputName n => exact ih
    | setBitrate i => exact List.mem_map_of_mem _ (List.get_mem _ _ _)
    | setExportFormat f => exact ih
    | setImageFitMode m => exact ih
    | selectImage sel probeImage =>
      rw [step, handleSelectImage_bitrate]
      exact ih
    | removeImage => exact ih
    | exportClips p => exact ih

/-- C7 witness: the initial state is reachable and its bitrate is in the
enumerated set. -/
theorem bitrate_always_in_options_witness :
    initialState.bitrate = "256k" ∧
    initialState.bitrate ∈ BITRATE_OPTIONS.map (fun o => o.value) :=
  bitrate_always_in_options initialState Reachable.init

/-- C8: the session holds at most one background image (an optional
value): selecting a new valid image makes it the unique held image,
discarding any previously held one, and removing leaves none. -/
theorem background_image_single (s : SessionState) (path : String)
    (probeImage : String → ImageInfo)
    (hext : isSupportedImage (basename path) = true)
    (hvalid : (probeImage path).valid = true) :
    (handleSelectImage s (some path) probeImage).backgroundImage =
      some { path := path, name := basename path,
             width := (probeImage path).width, height := (probeImage path).height } ∧
    (handleRemoveImage s).backgroundImage = none := by
  constructor
  · rw [handleSelectImage, if_pos hext, if_pos hvalid]
  · rfl

/-- C8 witness: evaluation with a concrete image path and probe, on a
session already holding a different image. -/
theorem background_image_single_witness :
    (handleSelectImage exampleStateWithBg
        (some "/tmp/bg.png") exampleProbeImage).backgroundImage = some exampleNewBg ∧
    (handleRemoveImage exampleStateWithBg).backgroundImage = none := by
  have h := background_image_single exampleStateWithBg
    "/tmp/bg.png" exampleProbeImage (by decide) (by decide)
  exact ⟨by simpa [exampleNewBg] using h.1, h.2⟩

/-- C3: a path whose filename extension is unsupported is rejected by
`addAudioFiles` before any external process is spawned: it never appears
among the paths handed to the probing call `get_audio_info`, and no clip
with that path is produced — for any probe behaviour, id supply and input
list. -/
theorem unsupported_not_probed (probe : String → Except String AudioInfo)
    (idGen : Nat → String) (paths : List String) (p : String)
    (hu : isSupportedAudio (basename p) = false) :
    p ∉ (addLoopTrace probe idGen paths 0).2 ∧
    ∀ c ∈ (addLoopTrace probe idGen paths 0).1, c.path ≠ p := by
  constructor
  · intro hmem
    have hsup := addLoopTrace_probed_supported probe idGen paths 0 p hmem
    rw [hu] at hsup
    exact Bool.noConfusion hsup
  · intro c hc hcp
    have h2 := (addLoopTrace_clips_accepted probe idGen paths 0 c hc).1
    rw [hcp] at h2
    simp [accepts, hu] at h2

/-- C3 witness: with a concrete probe and path list containing the
unsupported `notes.txt`, that path is neither probed nor turned into a
clip. -/
theorem unsupported_not_probed_witness :
    "notes.txt" ∉ (addLoopTrace exampleProbe exampleIdGen
        ["/tmp/one.mp3", "notes.txt"] 0).2 ∧
    ∀ c ∈ (addLoopTrace exampleProbe exampleIdGen ["/tmp/one.mp3", "notes.txt"] 0).1,
      c.path ≠ "notes.txt" :=
  unsupported_not_probed exampleProbe exampleIdGen ["/tmp/one.mp3", "notes.txt"]
    "notes.txt" (by decide)

/-- C4: `addAudioFiles` appends to the previous session list exactly the
clips for the paths that were accepted (supported extension, probe
resolved, probe reported valid), at the end, in input order; a probe
failure or invalid result for one path only skips that path, with every
accepted clip carrying its probe's duration and size. -/
theorem addAudioFiles_appends_exactly_valid (probe : String → Except String AudioInfo)
    (idGen : Nat → String) (paths : List String) (prev : List AudioClip) :
    addAudioFiles probe idGen paths prev =
      prev ++ (addLoopTrace probe idGen paths 0).1 ∧
    ((addLoopTrace probe idGen paths 0).1).map (fun c => c.path) =
      paths.filter (accepts probe) ∧
    ∀ c ∈ (addLoopTrace probe idGen paths 0).1,
      ∃ info, probe c.path = Except.ok info ∧ info.valid = true ∧
        c.duration = info.duration ∧ c.size = info.size :=
  ⟨addAudioFiles_eq_append probe idGen paths prev,
   addLoopTrace_map_path probe idGen paths 0,
   fun c hc =>
     match (addLoopTrace_clips_accepted probe idGen paths 0 c hc).2 with
     | ⟨info, h1, h2, h3, h4, _⟩ => ⟨info, h1, h2, h3, h4⟩⟩

/-- C5: session operations never alter a clip's fields — move up/down and
drag reorder only permute the list (so every clip survives with id, path,
name, duration and size intact), adding files keeps every existing clip,
and removal keeps every clip whose id differs from the targeted id while
introducing nothing new. -/
theorem clip_fields_immutable (clips : List AudioClip) (i : Nat) (dir : Direction)
    (d idx : Nat) (rid : String) (probe : String → Except String AudioInfo)
    (idGen : Nat → String) (paths : List String)
    (hi : i < clips.length) (hd : d < clips.length) :
    (moveClip clips i dir).Perm clips ∧
    ((handleDragOverItem clips (some d) idx).1).Perm clips ∧
    (∀ c ∈ clips, c.id ≠ rid → c ∈ removeClip clips rid) ∧
    (∀ c ∈ removeClip clips rid, c ∈ clips) ∧
    (∀ c ∈ clips, c ∈ addAudioFiles probe idGen paths clips) := by
  refine ⟨moveClip_perm clips i hi dir, handleDragOverItem_perm clips d idx hd,
    ?_, ?_, ?_⟩
  · intro c hc hne
    exact List.mem_filter.mpr ⟨hc, by simp [hne]⟩
  · intro c hc
    exact List.mem_of_mem_filter hc
  · intro c hc
    rw [addAudioFiles_eq_append]
    exact List.mem_append_left _ hc

/-- C5 witness: evaluation on the three-clip fixture. -/
theorem clip_fields_immutable_witness :
    (moveClip exampleClips 1 .up).Perm exampleClips ∧
    ((handleDragOverItem exampleClips (some 0) 2).1).Perm exampleClips ∧
    exampleClip1 ∈ removeClip exampleClips "a2" ∧
    exampleClip1 ∈ addAudioFiles exampleProbe exampleIdGen ["/tmp/one.mp3"] exampleClips := by
  have h := clip_fields_immutable exampleClips 1 .up 0 2 "a2" exampleProbe exampleIdGen
    ["/tmp/one.mp3"] (by decide) (by decide)
  exact ⟨h.1, h.2.1, h.2.2.1 exampleClip1 (by decide) (by decide),
    h.2.2.2.2 exampleClip1 (by decide)⟩

/-- C9: `moveClip` at the first position with direction up, or at the
last position with direction down, leaves the list unchanged; at any
other valid index it swaps exactly the entry at the index with the
adjacent entry in the given direction, preserving every other position,
the length and the multiset of elements. -/
theorem moveClip_boundary_and_swap (clips : List AudioClip) (i : Nat)
    (hi : i < clips.length) :
    moveClip clips 0 .up = clips ∧
    moveClip clips (clips.length - 1) .down = clips ∧
    (0 < i →
      (moveClip clips i .up).length = clips.length ∧
      (moveClip clips i .up).Perm clips ∧
      (moveClip clips i .up).getD (i - 1) default = clips.getD i default ∧
      (moveClip clips i .up).getD i default = clips.getD (i - 1) default ∧
      ∀ j : Nat, j ≠ i → j ≠ i - 1 →
        (moveClip clips i .up).getD j default = clips.getD j default) ∧
    (i + 1 < clips.length →
      (moveClip clips i .down).length = clips.length ∧
      (moveClip clips i .down).Perm clips ∧
      (moveClip clips i .down).getD (i + 1) default = clips.getD i default ∧
      (moveClip clips i .down).getD i default = clips.getD (i + 1) default ∧
      ∀ j : Nat, j ≠ i → j ≠ i + 1 →
        (moveClip clips i .down).getD j default = clips.getD j default) := by
  refine ⟨moveClip_up_zero clips, moveClip_down_last clips, ?_, ?_⟩
  · intro h0
    rw [moveClip_up_eq clips i h0 hi]
    refine ⟨by simp, swap_sets_perm default clips i (i - 1) hi (by omega), ?_, ?_, ?_⟩
    · rw [getD_set_at _ (i - 1) _ _ (by simp; omega)]
    · rw [getD_set_away _ (i - 1) i _ _ (by omega),
        getD_set_at _ i _ _ hi]
    · intro j hj1 hj2
      rw [getD_set_away _ (i - 1) j _ _ (fun hh => hj2 hh.symm),
        getD_set_away _ i j _ _ (fun hh => hj1 hh.symm)]
  · intro hdn
    rw [moveClip_down_eq clips i hdn]
    refine ⟨by simp, swap_sets_perm default clips i (i + 1) hi hdn, ?_, ?_, ?_⟩
    · rw [getD_set_at _ (i + 1) _ _ (by simpa using hdn)]
    · rw [getD_set_away _ (i + 1) i _ _ (by omega),
        getD_set_at _ i _ _ hi]
    · intro j hj1 hj2
      rw [getD_set_away _ (i + 1) j _ _ (fun hh => hj2 hh.symm),
        getD_set_away _ i j _ _ (fun hh => hj1 hh.symm)]

/-- C9 witness: evaluation at index 1 of the three-clip fixture,
including one preserved position from each pointwise clause. -/
theorem moveClip_boundary_and_swap_witness :
    moveClip exampleClips 0 .up = exampleClips ∧
    moveClip exampleClips (exampleClips.length - 1) .down = exampleClips ∧
    (moveClip exampleClips 1 .up).length = exampleClips.length ∧
    (moveClip exampleClips 1 .up).Perm exampleClips ∧
    (moveClip exampleClips 1 .up).getD 0 default = exampleClips.getD 1 default ∧
    (moveClip exampleClips 1 .up).getD 1 default = exampleClips.getD 0 default ∧
    (moveClip exampleClips 1 .up).getD 2 default = exampleClips.getD 2 default ∧
    (moveClip exampleClips 1 .down).length = exampleClips.length ∧
    (moveClip exampleClips 1 .down).Perm exampleClips ∧
    (moveClip exampleClips 1 .down).getD 2 default = exampleClips.getD 1 default ∧
    (moveClip exampleClips 1 .down).getD 1 default = exampleClips.getD 2 default ∧
    (moveClip exampleClips 1 .down).getD 0 default = exampleClips.getD 0 default := by
  have h := moveClip_boundary_and_swap exampleClips 1 (by decide)
  have hup := h.2.2.1 (by decide)
  have hdn := h.2.2.2 (by decide)
  exact ⟨h.1, h.2.1, hup.1, hup.2.1, hup.2.2.1, hup.2.2.2.1,
    hup.2.2.2.2 2 (by decide) (by decide),
    hdn.1, hdn.2.1, hdn.2.2.1, hdn.2.2.2.1,
    hdn.2.2.2.2 0 (by decide) (by decide)⟩

/-- C6: a video export with a background image narrower than 1920x1080
hands `stitch_video` a `VideoConfig` carrying the session's fit mode, and
the filter chain the encoder command applies for that mode (modelled from
the spec, the backend source being absent) scales preserving aspect ratio
and pads — never crops — for fit, and crops — never pads — for fill. -/
theorem fit_mode_filter_chain (s : SessionState) (p : String) (img : BackgroundImage)
    (himg : s.backgroundImage = some img) (hw : img.width < 1920)
    (hfmt : s.exportFormat = .mp4) (hcl : s.clips ≠ []) :
    ∃ vc : VideoConfig,
      handleExport s (some p) = .run .stitch_video s.clips p s.bitrate (some vc) ∧
      vc.fit_mode = s.imageFitMode ∧
      VideoFilterStep.scalePreserveAspect ∈ buildVideoFilterChain vc.fit_mode ∧
      (s.imageFitMode = .fit →
        VideoFilterStep.padToCanvas ∈ buildVideoFilterChain vc.fit_mode ∧
        VideoFilterStep.cropToCanvas ∉ buildVideoFilterChain vc.fit_mode) ∧
      (s.imageFitMode = .fill →
        VideoFilterStep.cropToCanvas ∈ buildVideoFilterChain vc.fit_mode ∧
        VideoFilterStep.padToCanvas ∉ buildVideoFilterChain vc.fit_mode) := by
  refine ⟨⟨imagePathOrNull s.backgroundImage, s.imageFitMode⟩, ?_, rfl, ?_, ?_, ?_⟩
  · rw [handleExport.eq_def,
      if_neg (fun hh => hcl (List.length_eq_zero.mp hh)), hfmt]
  · cases s.imageFitMode <;> simp [buildVideoFilterChain]
  · intro hf
    rw [hf]
    exact ⟨by simp [buildVideoFilterChain], by simp [buildVideoFilterChain]⟩
  · intro hf
    rw [hf]
    exact ⟨by simp [buildVideoFilterChain], by simp [buildVideoFilterChain]⟩

/-- C6 witness: evaluation on the video-export fixture with an 800-wide
image in fit mode. -/
theorem fit_mode_filter_chain_witness :
    handleExport exampleVideoState (some "/tmp/out.mp4") =
      ExportAction.run .stitch_video exampleVideoState.clips "/tmp/out.mp4"
        exampleVideoState.bitrate (some exampleVideoConfig) ∧
    VideoFilterStep.padToCanvas ∈ buildVideoFilterChain exampleVideoConfig.fit_mode ∧
    VideoFilterStep.cropToCanvas ∉ buildVideoFilterChain exampleVideoConfig.fit_mode := by
  obtain ⟨vc, h1, h2, h3, h4, h5⟩ := fit_mode_filter_chain exampleVideoState "/tmp/out.mp4"
    exampleBg800 rfl (by decide) rfl (by decide)
  have hvc : vc = exampleVideoConfig := by
    have hev : handleExport exampleVideoState (some "/tmp/out.mp4") =
        ExportAction.run .stitch_video exampleVideoState.clips "/tmp/out.mp4"
          exampleVideoState.bitrate (some exampleVideoConfig) := by decide
    have := hev.symm.trans h1
    simp only [ExportAction.run.injEq, Option.some.injEq] at this
    exact this.2.2.2.2.symm
  subst hvc
  exact ⟨h1, (h4 rfl).1, (h4 rfl).2⟩

/-- C10: the supported-audio check accepts a filename exactly when the
substring from the last dot to the end, lowercased, is one of
`SUPPORTED_EXTENSIONS`; acceptance is case-insensitive in the extension
(a name ending in .MP3 is accepted), and a filename containing no dot is
always rejected. -/
theorem isSupportedAudio_ext_characterization (f : String) (hnd : '.' ∉ f.data) :
    (∀ g : String, isSupportedAudio g = true ↔
      ∃ i, lastDotPos g.data = some i ∧
        SUPPORTED_EXTENSIONS.contains (lowerStr (dropStr g i)) = true) ∧
    isSupportedAudio f = false ∧
    isSupportedAudio "mix.MP3" = true ∧
    isSupportedAudio "mix.mp3" = true ∧
    isSupportedAudio "mp3" = false := by
  refine ⟨?_, no_dot_rejected f hnd, by decide, by decide, by decide⟩
  intro g
  cases hld : lastDotPos g.data with
  | some i =>
    rw [isSupportedAudio, extOf, hld]
    dsimp only
    constructor
    · intro h
      exact ⟨i, rfl, by rw [lowerStr_dropStr]; exact h⟩
    · rintro ⟨j, hj, hcon⟩
      have hij : i = j := Option.some.inj hj
      rw [lowerStr_dropStr, ← hij] at hcon
      exact hcon
  | none =>
    have hg : isSupportedAudio g = false :=
      no_dot_rejected g ((lastDotPos_eq_none_iff g.data).mp hld)
    simp [hg, hld]

/-- C10 witness: evaluation at a dotless filename and at concrete
accepted extensions, including the upper-case one. -/
theorem isSupportedAudio_ext_characterization_witness :
    isSupportedAudio "playlist" = false ∧
    isSupportedAudio "mix.MP3" = true ∧
    (isSupportedAudio "mix.wav" = true ↔
      ∃ i, lastDotPos ("mix.wav" : String).data = some i ∧
        SUPPORTED_EXTENSIONS.contains (lowerStr (dropStr "mix.wav" i)) = true) := by
  have h := isSupportedAudio_ext_characterization "playlist" (by decide)
  exact ⟨h.2.1, h.2.2.1, h.1 "mix.wav"⟩

end RadioTrafficStitcher
